import Mathlib

/-!
Verification of the Stock_Market fetch-and-cache pipeline.

Shallow embedding of `src/main.py` (class `StockMarket` / `StockFigure` /
`UserInputPanel` / `LabelButton`).  The embedding models:

* the reactive fetch pipeline `StockFigure.fetch_data` (symbol normalisation,
  cache lookup keyed by the string `f'{symbol}_{period}'`, the `match period`
  dispatch to the data source, the empty-data abort, the cache write, and the
  final render);
* the data source (`yf.Ticker(symbol).history(...)`) as an abstract adapter
  that either returns a time series or raises an exception — `fetch_data`
  contains no `try`/`except`, so a raised adapter exception escapes the
  function, which the embedding records as the `raised` outcome;
* the period-selector widgets (`LabelButton.set_period` / `_set_active`)
  and the application startup path.

Time is modelled in whole days as `Int`: `datetime.now()` becomes the
parameter `now`, and `timedelta(days=10)` becomes the integer `10`.
Prices are modelled as `Int`; a pandas `DataFrame` of rows becomes a list of
`(timestamp, close)` pairs, whose `.empty` test is `List.isEmpty` and whose
`.iloc[-5:]` is "keep the last 5 entries".  The Python `dict` cache is an
association list written only at keys where lookup previously failed.
-/

/-- A historical series: (timestamp, closing price) rows, `DataFrame`-like. -/
abbrev TimeSeries := List (Int × Int)

/-- The dict `self.cache` mapping the string key `f'{symbol}_{period}'` to
the fetched series. -/
abbrev Cache := List (String × TimeSeries)

/-- Adapter-level failures that `yfinance` calls could raise. -/
inductive AdapterExn where
  | netErr
  | providerErr
  | timeoutErr
deriving DecidableEq

/-- The query descriptor handed to the data source: either an explicit
`[startDate, endDate]` range (the `Week` branch: `stock.history(start=…,
end=…)`) or one of the named trailing periods (`stock.history(period=…)`). -/
inductive Query where
  | range (startDate endDate : Int)
  | period1mo
  | period6mo
  | period1y
  | periodMax
deriving DecidableEq

/-- The data source (`yf.Ticker(symbol).history(...)`).  A call either
returns a series (possibly empty) or raises an adapter exception. -/
structure Adapter where
  history : String → Query → Except AdapterExn TimeSeries

/-- Python `str.upper()` over the characters of the string (basic-latin
uppercasing, which covers ticker symbols). -/
def upper (s : String) : String :=
  String.mk (s.data.map Char.toUpper)

/-- The cache key built in `fetch_data`:
`symbol = self.symbol_string.get().upper()` then
`symbol_period = f'{symbol}_{period}'`. -/
def cacheKey (symbol_string period : String) : String :=
  upper symbol_string ++ "_" ++ period

/-- Keep the last `n` rows of the frame, as `.iloc[-n:]` does. -/
def lastN (n : Nat) (l : TimeSeries) : TimeSeries :=
  l.drop (l.length - n)

/-- The `match period` dispatch of `fetch_data`, restricted to the query it
sends to the data source.  Python's `match` tests the cases in order, which
the `if`-chain mirrors; the wildcard case yields `none` ("abort").
`Week` builds `start_date = end_date - timedelta(days=10)` from
`end_date = datetime.now()` (the local machine clock, passed in as `now`);
the other four branches use named trailing periods. -/
def branchQuery (period : String) (now : Int) : Option Query :=
  if period = "Week" then some (Query.range (now - 10) now)
  else if period = "Month" then some Query.period1mo
  else if period = "6 Months" then some Query.period6mo
  else if period = "1 Year" then some Query.period1y
  else if period = "Max" then some Query.periodMax
  else none

/-- Post-processing applied to the fetched frame inside the `match`: the
`Week` branch keeps only the last 5 rows (`.iloc[-5:]`); every other branch
uses the frame unchanged. -/
def branchPost (period : String) (raw : TimeSeries) : TimeSeries :=
  if period = "Week" then lastN 5 raw else raw

/-- How one run of `fetch_data` ends. -/
inductive RunOutcome where
  /-- the `if not symbol` abort: the symbol is empty. -/
  | abortedEmptySymbol
  /-- the wildcard `case _: return` — unrecognized period. -/
  | abortedInvalidPeriod
  /-- the `if data.empty` abort: the data source returned no rows. -/
  | abortedNoData
  /-- the data source call raised; `fetch_data` has no `try`/`except`, so
  the exception escapes the pipeline. -/
  | raised (e : AdapterExn)
  /-- the call `self._draw_plot(data)` was reached with this series. -/
  | rendered (data : TimeSeries)
deriving DecidableEq

/-- Whether a run ended in `_draw_plot` being invoked. -/
def isRendered : RunOutcome → Bool
  | RunOutcome.rendered _ => true
  | _ => false

/-- The observable result of one run of `fetch_data`: the cache afterwards,
the log of data source calls made (symbol and query of each `history`
invocation), and the outcome. -/
structure RunResult where
  cache : Cache
  calls : List (String × Query)
  outcome : RunOutcome
deriving DecidableEq

/-- Transcription of `StockFigure.fetch_data`, step by step:

1. `symbol = self.symbol_string.get().upper()`; `if not symbol: return`;
2. `period = self.period_string.get()`; `symbol_period = f'{symbol}_{period}'`;
3. `if symbol_period in self.cache:` use the cached frame and jump to
   `_draw_plot`;
4. otherwise dispatch on `period` (`branchQuery`/`branchPost`; the wildcard
   case returns), calling `stock.history(...)` — the only data source call,
   hence the only entry appended to `calls`; an exception raised there
   escapes `fetch_data` (no `try`/`except` in the source);
5. `if data.empty: return` without caching;
6. `self.cache[symbol_period] = data`; `self._draw_plot(data)`.

`yf.Ticker(symbol)` itself performs no retrieval, so it is not logged. -/
def fetch_data (adapter : Adapter) (now : Int)
    (symbol_string period_string : String) (cache : Cache) : RunResult :=
  let symbol := upper symbol_string
  if symbol = "" then ⟨cache, [], RunOutcome.abortedEmptySymbol⟩
  else
    let symbol_period := symbol ++ "_" ++ period_string
    match List.lookup symbol_period cache with
    | some data => ⟨cache, [], RunOutcome.rendered data⟩
    | none =>
      match branchQuery period_string now with
      | none => ⟨cache, [], RunOutcome.abortedInvalidPeriod⟩
      | some q =>
        match adapter.history symbol q with
        | Except.error e => ⟨cache, [(symbol, q)], RunOutcome.raised e⟩
        | Except.ok raw =>
          let data := branchPost period_string raw
          if data.isEmpty then ⟨cache, [(symbol, q)], RunOutcome.abortedNoData⟩
          else ⟨(symbol_period, data) :: cache, [(symbol, q)], RunOutcome.rendered data⟩

/-- Cache invariant: no stored entry is an empty series. -/
def CacheOK (cache : Cache) : Prop :=
  ∀ kv ∈ cache, kv.2 ≠ ([] : TimeSeries)

-- Sample collaborators used to instantiate theorems on concrete inputs.

/-- A one-row series. -/
def someSeries : TimeSeries := [(0, 100)]

/-- An adapter whose every call succeeds with `someSeries`. -/
def okAdapter : Adapter := ⟨fun _ _ => Except.ok someSeries⟩

/-- An adapter whose every call returns an empty frame. -/
def emptyAdapter : Adapter := ⟨fun _ _ => Except.ok []⟩

/-- An adapter whose every call raises a network error. -/
def throwingAdapter : Adapter := ⟨fun _ _ => Except.error AdapterExn.netErr⟩

-- ## Period selector widgets (`UserInputPanel` / `LabelButton`)

/-- A label's `text_color`: either the normal `TEXT_COLOR` or the active
`HIGHLIGHT_COLOR` (green).  The concrete hex values live in the absent
`settings.py`; only their distinctness matters here. -/
inductive Color where
  | text
  | highlight
deriving DecidableEq

/-- The `UserInputPanel` together with its `LabelButton` children, each
identified by its label text: `last_chosen_button` is the parent's
back-pointer to the last clicked label (`None` at creation), and
`text_color` records each existing button's current text colour. -/
structure Panel where
  last_chosen_button : Option String
  text_color : List (String × Color)
deriving DecidableEq

/-- Update one button's colour, as `widget.configure(text_color=c)` does. -/
def setColor (l : List (String × Color)) (b : String) (c : Color) :
    List (String × Color) :=
  l.map fun kv => if kv.1 = b then (b, c) else kv

/-- A button's current text colour, if the button exists. -/
def colorOf (p : Panel) (b : String) : Option Color :=
  List.lookup b p.text_color

/-- Transcription of `LabelButton._set_active`: if the parent's
`last_chosen_button` is this very button, do nothing; otherwise reset the
previously chosen button (if any) to `TEXT_COLOR`, set this button to
`HIGHLIGHT_COLOR`, and store this button in `last_chosen_button`. -/
def set_active (p : Panel) (self : String) : Panel :=
  if p.last_chosen_button = some self then p
  else
    let p1 :=
      match p.last_chosen_button with
      | some prev => { p with text_color := setColor p.text_color prev Color.text }
      | none => p
    { last_chosen_button := some self,
      text_color := setColor p1.text_color self Color.highlight }

/-- Panel invariant tying colours to the back-pointer: a button is
highlighted exactly when it is the `last_chosen_button`, and the
`last_chosen_button`, when set, names an existing button. -/
def PanelInv (p : Panel) : Prop :=
  (∀ kv ∈ p.text_color, (kv.2 = Color.highlight ↔ p.last_chosen_button = some kv.1)) ∧
  p.last_chosen_button.elim True (fun b => b ∈ p.text_color.map Prod.fst)

-- ## Application state and the startup path

/-- The whole application as the pipeline sees it: the two `StringVar`
cells, the selector panel, and the cache.  Both `StringVar`s start empty
and the cache starts as `dict()`. -/
structure AppState where
  symbol : String
  period : String
  panel : Panel
  cache : Cache
deriving DecidableEq

/-- Transcription of `LabelButton.set_period`: the call `self._set_active()` recolours
the panel, then `self.period_string.set(period)` stores the period, which
(via the `trace` on `period_string`) synchronously runs `fetch_data`.
Returns the new application state and the run's result. -/
def set_period (adapter : Adapter) (now : Int) (st : AppState)
    (self period : String) : AppState × RunResult :=
  let panel1 := set_active st.panel self
  let st1 : AppState := ⟨st.symbol, period, panel1, st.cache⟩
  let r := fetch_data adapter now st1.symbol st1.period st1.cache
  (⟨st1.symbol, st1.period, st1.panel, r.cache⟩, r)

/-- A user click on a label: the `<Button-1>` binding runs
`self.set_period(period=text)`, the button's own text. -/
def click (adapter : Adapter) (now : Int) (st : AppState) (text : String) :
    AppState × RunResult :=
  set_period adapter now st text text

/-- Modelled from the spec: `settings.py` (which defines `TIME_OPTIONS`) is
not under `src/`; the spec fixes the five selector values, matching the five
`case` patterns of `fetch_data`.  Their creation order is unknown and
irrelevant to the claims; `Max` is placed last so the startup activation
happens after all buttons exist. -/
def TIME_OPTIONS : List String := ["Week", "Month", "6 Months", "1 Year", "Max"]

/-- Creation of one `LabelButton` (`LabelButton.__init__`) for one label: the widget is created with
`text_color=TEXT_COLOR` and, when its text is `'Max'`, immediately runs
`self.set_period('Max')` — the very same path the click binding uses. -/
def labelButtonInit (adapter : Adapter) (now : Int)
    (acc : AppState × List RunResult) (text : String) : AppState × List RunResult :=
  let st1 : AppState :=
    ⟨acc.1.symbol, acc.1.period,
     ⟨acc.1.panel.last_chosen_button, acc.1.panel.text_color ++ [(text, Color.text)]⟩,
     acc.1.cache⟩
  if text = "Max" then
    let res := set_period adapter now st1 text "Max"
    (res.1, acc.2 ++ [res.2])
  else (st1, acc.2)

/-- The state right after `StockMarket.__init__` set up the `StringVar`s
(both empty), the cache (`dict()`), the `StockFigure` traces, and the
`UserInputPanel` frame — before any `LabelButton` exists.  (The entry box
shows the default text `'AAPL'` but `symbol_string` is only set when the
user presses Return, so the symbol cell is still empty.) -/
def appStart : AppState := ⟨"", "", ⟨none, []⟩, []⟩

/-- Application startup: `UserInputPanel.create_widgets` creates one
`LabelButton` per entry of `TIME_OPTIONS`; the `'Max'` button's init
triggers the one startup pipeline run.  Returns the resulting state and
the list of pipeline runs performed during creation. -/
def startupApp (adapter : Adapter) (now : Int) : AppState × List RunResult :=
  TIME_OPTIONS.foldl (labelButtonInit adapter now) (appStart, [])

/-- The idle fully-built application with all five selectors present, no
selection yet, empty symbol and cache: what `appStart` becomes once every
button exists. -/
def appIdle : AppState := ⟨"", "", ⟨none, TIME_OPTIONS.map (fun l => (l, Color.text))⟩, []⟩


-- ## Shape lemmas for the pipeline (shared by the claim theorems)

/-- On a cache hit with a non-empty symbol, `fetch_data` renders the stored
series and touches neither the cache nor the data source. -/
theorem fetch_data_hit (adapter : Adapter) (now : Int) (sym per : String)
    (cache : Cache) (d : TimeSeries)
    (hsym : upper sym ≠ "")
    (hhit : List.lookup (cacheKey sym per) cache = some d) :
    fetch_data adapter now sym per cache = ⟨cache, [], RunOutcome.rendered d⟩ := by
  unfold cacheKey at hhit
  simp only [fetch_data]
  rw [if_neg hsym, hhit]

/-- On a cache miss with an unrecognized period, `fetch_data` falls to the
wildcard case and returns with no effects. -/
theorem fetch_data_invalid (adapter : Adapter) (now : Int) (sym per : String)
    (cache : Cache)
    (hsym : upper sym ≠ "")
    (hmiss : List.lookup (cacheKey sym per) cache = none)
    (hinv : branchQuery per now = none) :
    fetch_data adapter now sym per cache =
      ⟨cache, [], RunOutcome.abortedInvalidPeriod⟩ := by
  unfold cacheKey at hmiss
  simp only [fetch_data]
  rw [if_neg hsym, hmiss, hinv]

/-- On a cache miss with a recognized period, `fetch_data` makes exactly one
data source call and finishes according to that call's result. -/
theorem fetch_data_miss (adapter : Adapter) (now : Int) (sym per : String)
    (cache : Cache) (q : Query)
    (hsym : upper sym ≠ "")
    (hmiss : List.lookup (cacheKey sym per) cache = none)
    (hq : branchQuery per now = some q) :
    fetch_data adapter now sym per cache =
      match adapter.history (upper sym) q with
      | Except.error e => ⟨cache, [(upper sym, q)], RunOutcome.raised e⟩
      | Except.ok raw =>
        if (branchPost per raw).isEmpty then
          ⟨cache, [(upper sym, q)], RunOutcome.abortedNoData⟩
        else
          ⟨(cacheKey sym per, branchPost per raw) :: cache, [(upper sym, q)],
            RunOutcome.rendered (branchPost per raw)⟩ := by
  unfold cacheKey at hmiss ⊢
  simp only [fetch_data]
  rw [if_neg hsym, hmiss, hq]

/-- C6: with an empty Symbol the pipeline is a silent no-op for every value
of Period: no data source call, no cache write, no render, the state left
untouched. -/
theorem empty_symbol_silent_noop (adapter : Adapter) (now : Int)
    (period : String) (cache : Cache) :
    fetch_data adapter now "" period cache =
      ⟨cache, [], RunOutcome.abortedEmptySymbol⟩ :=
  rfl

/-- C3: two symbols equal up to letter case (equal after uppercasing, the
code's own normal form) produce the same cache key and the very same
pipeline behaviour on any cache; in particular "aapl" and "AAPL" share one
cache key for every period and hence resolve to the same cached entry. -/
theorem symbol_case_insensitive (adapter : Adapter) (now : Int)
    (s1 s2 period : String) (cache : Cache) (h : upper s1 = upper s2) :
    cacheKey s1 period = cacheKey s2 period ∧
    fetch_data adapter now s1 period cache = fetch_data adapter now s2 period cache ∧
    cacheKey "aapl" period = cacheKey "AAPL" period := by
  have haapl : upper "aapl" = upper "AAPL" := by decide
  refine ⟨?_, ?_, ?_⟩
  · unfold cacheKey; rw [h]
  · simp only [fetch_data]; rw [h]
  · unfold cacheKey; rw [haapl]

/-- Witness for the case-insensitivity theorem at `"aapl"` / `"AAPL"`. -/
theorem symbol_case_insensitive_witness :
    cacheKey "aapl" "Max" = cacheKey "AAPL" "Max" ∧
    fetch_data okAdapter 0 "aapl" "Max" [] = fetch_data okAdapter 0 "AAPL" "Max" [] ∧
    cacheKey "aapl" "Max" = cacheKey "AAPL" "Max" :=
  symbol_case_insensitive okAdapter 0 "aapl" "AAPL" "Max" [] (by decide)

/-- C10: the period is matched as an exact, case-sensitive string: a branch
of the dispatch is selected exactly for the five literal values, variants
such as "week", "MAX" and "1 year" fall to the wildcard and the pipeline
aborts on them (shown concretely on the empty cache), and the cache key
uses the period verbatim — no case normalization — so "max" and "MAX" even
key differently, unlike the symbol. -/
theorem period_match_exact (p : String) (now : Int) :
    ((branchQuery p now).isSome ↔
      p = "Week" ∨ p = "Month" ∨ p = "6 Months" ∨ p = "1 Year" ∨ p = "Max") ∧
    branchQuery "week" now = none ∧
    branchQuery "MAX" now = none ∧
    branchQuery "1 year" now = none ∧
    fetch_data okAdapter now "AAPL" "MAX" [] =
      ⟨[], [], RunOutcome.abortedInvalidPeriod⟩ ∧
    cacheKey "AAPL" "max" ≠ cacheKey "AAPL" "MAX" := by
  refine ⟨?_, rfl, rfl, rfl, rfl, by decide⟩
  unfold branchQuery
  split_ifs with h1 h2 h3 h4 h5 <;> simp_all

/-- C4 counterexample: at `now = 0` the `Week` branch resolves the query
window `[now - 10, now]`, not the 8-day window `[now - 8, now]` the claim
states — the source subtracts `timedelta(days=10)`. -/
theorem week_window_not_eight_days :
    branchQuery "Week" 0 = some (Query.range (0 - 10) 0) ∧
    Query.range (0 - 10) 0 ≠ Query.range (0 - 8) 0 := by decide

/-- C4 (amended): on a cache miss the `Week` pipeline issues exactly one
query, the range `[now - 10, now]` built from `end_date = datetime.now()` —
the machine-local clock passed in as `now`, no exchange timezone being
consulted — and the fetched frame is then cut to its last 5 rows. -/
theorem week_window_ten_days_local (adapter : Adapter) (now : Int)
    (sym : String) (cache : Cache)
    (hsym : upper sym ≠ "")
    (hmiss : List.lookup (cacheKey sym "Week") cache = none) :
    branchQuery "Week" now = some (Query.range (now - 10) now) ∧
    (fetch_data adapter now sym "Week" cache).calls =
      [(upper sym, Query.range (now - 10) now)] ∧
    ∀ raw : TimeSeries, branchPost "Week" raw = lastN 5 raw := by
  refine ⟨rfl, ?_, fun raw => rfl⟩
  rw [fetch_data_miss adapter now sym "Week" cache (Query.range (now - 10) now)
    hsym hmiss rfl]
  cases adapter.history (upper sym) (Query.range (now - 10) now) with
  | error e => rfl
  | ok raw =>
    by_cases he : (branchPost "Week" raw).isEmpty
    · simp only [he, if_true]
    · simp only [he, Bool.false_eq_true, if_false]

/-- Witness for the amended Week-window theorem at `now = 7`,
symbol `"aapl"`, empty cache. -/
theorem week_window_ten_days_local_witness :
    branchQuery "Week" 7 = some (Query.range (7 - 10) 7) ∧
    (fetch_data okAdapter 7 "aapl" "Week" []).calls =
      [(upper "aapl", Query.range (7 - 10) 7)] ∧
    ∀ raw : TimeSeries, branchPost "Week" raw = lastN 5 raw :=
  week_window_ten_days_local okAdapter 7 "aapl" [] (by decide) rfl

/-- C5 counterexample: an adapter whose call raises a network error makes
the pipeline end in the `raised` outcome — the exception escapes
`fetch_data`, which contains no handler, instead of being caught and
classified as a FetchError. -/
theorem adapter_error_not_caught :
    (fetch_data throwingAdapter 0 "AAPL" "Max" []).outcome =
      RunOutcome.raised AdapterExn.netErr := by decide

/-- C5 (amended): when the data source call raises, the exception
propagates out of `fetch_data` uncaught (there is no FetchError
classification in the code); nothing is cached, and the renderer is not
invoked, so the prior chart is retained. -/
theorem adapter_error_propagates (adapter : Adapter) (now : Int)
    (sym per : String) (cache : Cache) (q : Query) (e : AdapterExn)
    (hsym : upper sym ≠ "")
    (hmiss : List.lookup (cacheKey sym per) cache = none)
    (hq : branchQuery per now = some q)
    (he : adapter.history (upper sym) q = Except.error e) :
    fetch_data adapter now sym per cache =
      ⟨cache, [(upper sym, q)], RunOutcome.raised e⟩ := by
  rw [fetch_data_miss adapter now sym per cache q hsym hmiss hq, he]

/-- Witness for the propagation theorem: the throwing adapter at
`("AAPL", "Max")` on the empty cache. -/
theorem adapter_error_propagates_witness :
    fetch_data throwingAdapter 0 "AAPL" "Max" [] =
      ⟨[], [("AAPL", Query.periodMax)], RunOutcome.raised AdapterExn.netErr⟩ :=
  adapter_error_propagates throwingAdapter 0 "AAPL" "Max" [] Query.periodMax
    AdapterExn.netErr (by decide) rfl rfl rfl

/-- C1: on identical valid inputs whose key is not yet cached and whose
fetch yields a non-empty series, the first pipeline run makes exactly one
data source call, writes the series under the key, and renders it; the
second run makes no data source call and serves the stored series — one
call in total across the two runs. -/
theorem fetch_twice_single_call (adapter : Adapter) (now now2 : Int)
    (sym per : String) (cache : Cache) (q : Query) (d : TimeSeries)
    (hsym : upper sym ≠ "")
    (hmiss : List.lookup (cacheKey sym per) cache = none)
    (hq : branchQuery per now = some q)
    (hd : adapter.history (upper sym) q = Except.ok d)
    (hne : branchPost per d ≠ []) :
    fetch_data adapter now sym per cache =
      ⟨(cacheKey sym per, branchPost per d) :: cache, [(upper sym, q)],
        RunOutcome.rendered (branchPost per d)⟩ ∧
    fetch_data adapter now2 sym per
        ((cacheKey sym per, branchPost per d) :: cache) =
      ⟨(cacheKey sym per, branchPost per d) :: cache, [],
        RunOutcome.rendered (branchPost per d)⟩ := by
  have hne2 : (branchPost per d).isEmpty = false := by
    simpa [List.isEmpty_eq_false] using hne
  constructor
  · rw [fetch_data_miss adapter now sym per cache q hsym hmiss hq, hd]
    simp only [hne2, Bool.false_eq_true, if_false]
  · exact fetch_data_hit adapter now2 sym per _ _ hsym (by simp)

/-- Witness for the fetch-twice theorem: `("AAPL", "Max")` on the empty
cache against the always-succeeding adapter, second run at a later time. -/
theorem fetch_twice_single_call_witness :
    fetch_data okAdapter 0 "AAPL" "Max" [] =
      ⟨[(cacheKey "AAPL" "Max", branchPost "Max" someSeries)],
        [(upper "AAPL", Query.periodMax)],
        RunOutcome.rendered (branchPost "Max" someSeries)⟩ ∧
    fetch_data okAdapter 5 "AAPL" "Max"
        [(cacheKey "AAPL" "Max", branchPost "Max" someSeries)] =
      ⟨[(cacheKey "AAPL" "Max", branchPost "Max" someSeries)], [],
        RunOutcome.rendered (branchPost "Max" someSeries)⟩ :=
  fetch_twice_single_call okAdapter 0 5 "AAPL" "Max" [] Query.periodMax someSeries
    (by decide) rfl rfl rfl (by decide)

/-- The non-empty-entries cache invariant is preserved by every pipeline
run, whatever the inputs and the adapter's behaviour. -/
theorem cacheOK_preserved (adapter : Adapter) (now : Int) (sym per : String)
    (cache : Cache) (hok : CacheOK cache) :
    CacheOK (fetch_data adapter now sym per cache).cache := by
  by_cases hs : upper sym = ""
  · simp only [fetch_data, if_pos hs]
    exact hok
  · cases hl : List.lookup (cacheKey sym per) cache with
    | some d =>
      rw [fetch_data_hit adapter now sym per cache d hs hl]
      exact hok
    | none =>
      cases hq : branchQuery per now with
      | none =>
        rw [fetch_data_invalid adapter now sym per cache hs hl hq]
        exact hok
      | some q =>
        rw [fetch_data_miss adapter now sym per cache q hs hl hq]
        cases hh : adapter.history (upper sym) q with
        | error e => exact hok
        | ok raw =>
          by_cases he : (branchPost per raw).isEmpty
          · simp only [he, if_true]
            exact hok
          · simp only [he, Bool.false_eq_true, if_false]
            intro kv hkv
            rcases List.mem_cons.mp hkv with h1 | h2
            · rw [h1]
              simpa using he
            · exact hok kv h2

/-- C2: the cache never contains an empty series — the invariant holds
through every pipeline run (first conjunct, fully general) — and when the
data source returns an empty series for a key, nothing is written, the
renderer is not invoked, and an identical re-invocation finds the cache
unchanged and performs a fresh data source call instead of serving a
cached empty result. -/
theorem no_empty_series_cached (adapter : Adapter) (now : Int)
    (sym per : String) (cache : Cache) (q : Query) (d : TimeSeries)
    (hsym : upper sym ≠ "")
    (hmiss : List.lookup (cacheKey sym per) cache = none)
    (hq : branchQuery per now = some q)
    (hd : adapter.history (upper sym) q = Except.ok d)
    (hde : branchPost per d = []) :
    (∀ a : Adapter, ∀ n : Int, ∀ s p : String, ∀ c : Cache,
      CacheOK c → CacheOK (fetch_data a n s p c).cache) ∧
    fetch_data adapter now sym per cache =
      ⟨cache, [(upper sym, q)], RunOutcome.abortedNoData⟩ ∧
    fetch_data adapter now sym per ((fetch_data adapter now sym per cache).cache) =
      ⟨cache, [(upper sym, q)], RunOutcome.abortedNoData⟩ := by
  have hrun : fetch_data adapter now sym per cache =
      ⟨cache, [(upper sym, q)], RunOutcome.abortedNoData⟩ := by
    rw [fetch_data_miss adapter now sym per cache q hsym hmiss hq, hd]
    simp [hde]
  refine ⟨fun a n s p c hc => cacheOK_preserved a n s p c hc, hrun, ?_⟩
  rw [hrun]
  exact hrun

/-- Witness for the never-cache-empty theorem: the empty-returning adapter
at `("AAPL", "Max")` on the empty cache. -/
theorem no_empty_series_cached_witness :
    (∀ a : Adapter, ∀ n : Int, ∀ s p : String, ∀ c : Cache,
      CacheOK c → CacheOK (fetch_data a n s p c).cache) ∧
    fetch_data emptyAdapter 0 "AAPL" "Max" [] =
      ⟨[], [(upper "AAPL", Query.periodMax)], RunOutcome.abortedNoData⟩ ∧
    fetch_data emptyAdapter 0 "AAPL" "Max"
        ((fetch_data emptyAdapter 0 "AAPL" "Max" []).cache) =
      ⟨[], [(upper "AAPL", Query.periodMax)], RunOutcome.abortedNoData⟩ :=
  no_empty_series_cached emptyAdapter 0 "AAPL" "Max" [] Query.periodMax []
    (by decide) rfl rfl rfl rfl

/-- C7 counterexample: with the cache in a state the pipeline itself
produced — a run with symbol "ab_m", period "Max" stored the key
"AB_M_Max" — a trigger with non-empty symbol "AB" and the invalid period
"M_Max" is not a no-op: the underscore-joined key collides with the stored
entry, and the renderer is invoked with the cached series. -/
theorem invalid_period_can_render_from_cache :
    branchQuery "M_Max" 0 = none ∧
    fetch_data okAdapter 0 "AB" "M_Max"
        (fetch_data okAdapter 0 "ab_m" "Max" []).cache =
      ⟨[("AB_M_Max", someSeries)], [], RunOutcome.rendered someSeries⟩ := by
  decide

/-- C7 (amended): if the period is unrecognized AND the built cache key is
absent from the cache (the key join is not injective, so a colliding entry
can defeat this), the pipeline aborts with no side effects: no data source
call, no cache write, no render. -/
theorem invalid_period_aborts_on_miss (adapter : Adapter) (now : Int)
    (sym per : String) (cache : Cache)
    (hsym : upper sym ≠ "")
    (hinv : branchQuery per now = none)
    (hmiss : List.lookup (cacheKey sym per) cache = none) :
    fetch_data adapter now sym per cache =
      ⟨cache, [], RunOutcome.abortedInvalidPeriod⟩ :=
  fetch_data_invalid adapter now sym per cache hsym hmiss hinv

/-- Witness for the invalid-period theorem: period "1 year" (wrong case)
with symbol "AAPL" on the empty cache. -/
theorem invalid_period_aborts_on_miss_witness :
    fetch_data okAdapter 0 "AAPL" "1 year" [] =
      ⟨[], [], RunOutcome.abortedInvalidPeriod⟩ :=
  invalid_period_aborts_on_miss okAdapter 0 "AAPL" "1 year" [] (by decide) rfl rfl

/-- C8 counterexample: the single pipeline run triggered at startup by
activating the default `Max` selector renders nothing — even with a data
source that would return data — because the symbol cell is still empty, so
the first chart render does require a user action. -/
theorem startup_does_not_render :
    (startupApp okAdapter 0).2.map (fun r => isRendered r.outcome) = [false] := by
  decide

/-- C8 (amended): at startup the `Max` selector is activated through the
very same `set_period` path a user click takes — equal, state and run, to
clicking `Max` on the idle application — marking `Max` active and
triggering one pipeline run; but the Symbol cell is still empty, so that
run aborts silently (no data source call, no cache write, no render): the
first chart render does not happen until the user submits a symbol. -/
theorem startup_activates_max_without_render (adapter : Adapter) (now : Int) :
    (startupApp adapter now).1 = (click adapter now appIdle "Max").1 ∧
    (startupApp adapter now).2 = [(click adapter now appIdle "Max").2] ∧
    (startupApp adapter now).1.panel.last_chosen_button = some "Max" ∧
    colorOf (startupApp adapter now).1.panel "Max" = some Color.highlight ∧
    (startupApp adapter now).2 = [⟨[], [], RunOutcome.abortedEmptySymbol⟩] ∧
    (startupApp adapter now).1.cache = [] :=
  ⟨rfl, rfl, rfl, rfl, rfl, rfl⟩

-- ## Selector exclusivity (C9)

/-- A colour other than the highlight is the normal text colour. -/
theorem color_eq_text_of_ne (c : Color) (h : c ≠ Color.highlight) :
    c = Color.text := by
  cases c
  · rfl
  · exact absurd rfl h

/-- Recolouring one button leaves the set of buttons unchanged. -/
theorem setColor_keys (l : List (String × Color)) (b : String) (c : Color) :
    (setColor l b c).map Prod.fst = l.map Prod.fst := by
  induction l with
  | nil => rfl
  | cons kv t ih =>
    simp only [setColor, List.map_cons] at ih ⊢
    by_cases hb : kv.1 = b
    · rw [if_pos hb, hb]
      exact congrArg (List.cons b) ih
    · rw [if_neg hb]
      exact congrArg (List.cons kv.1) ih

/-- An entry of the recoloured table is either the recoloured entry or an
untouched entry of the original whose key differs. -/
theorem mem_setColor (l : List (String × Color)) (b : String) (c : Color)
    (kv : String × Color) (h : kv ∈ setColor l b c) :
    kv = (b, c) ∨ (kv ∈ l ∧ kv.1 ≠ b) := by
  rcases List.mem_map.mp h with ⟨kv0, hkv0, heq⟩
  by_cases hb : kv0.1 = b
  · left
    rw [if_pos hb] at heq
    exact heq.symm
  · right
    rw [if_neg hb] at heq
    cases heq
    exact ⟨hkv0, hb⟩

/-- Looking up the recoloured button finds the new colour (the button must
exist in the table). -/
theorem lookup_setColor_self (l : List (String × Color)) (b : String) (c : Color)
    (hb : b ∈ l.map Prod.fst) :
    List.lookup b (setColor l b c) = some c := by
  induction l with
  | nil => simp at hb
  | cons kv t ih =>
    simp only [setColor, List.map_cons] at ih ⊢
    by_cases h : kv.1 = b
    · rw [if_pos h]
      simp
    · rw [if_neg h]
      have hb2 : b ∈ t.map Prod.fst := by
        rcases List.mem_cons.mp hb with h1 | h2
        · exact absurd h1.symm h
        · exact h2
      have hbeq : (b == kv.1) = false := by
        simp [Ne.symm h]
      rw [List.lookup_cons, hbeq]
      exact ih hb2

/-- A successful lookup comes from an entry of the table. -/
theorem lookup_mem_colors (l : List (String × Color)) (b : String) (c : Color)
    (h : List.lookup b l = some c) : (b, c) ∈ l := by
  rcases List.lookup_eq_some_iff.mp h with ⟨l1, l2, rfl, -⟩
  simp

/-- Core of `_set_active`: recolouring button `B` to the highlight in a
table whose other buttons are all in the normal colour yields a table where
`B` is highlighted, every other button shows the normal colour, and the
highlight characterizes `B`. -/
theorem set_active_core (l : List (String × Color)) (B : String)
    (htext : ∀ kv ∈ l, kv.1 ≠ B → kv.2 = Color.text)
    (hB : B ∈ l.map Prod.fst) :
    List.lookup B (setColor l B Color.highlight) = some Color.highlight ∧
    (∀ kv ∈ setColor l B Color.highlight, kv.1 ≠ B → kv.2 = Color.text) ∧
    (∀ kv ∈ setColor l B Color.highlight,
      (kv.2 = Color.highlight ↔ some B = some kv.1)) ∧
    B ∈ (setColor l B Color.highlight).map Prod.fst := by
  refine ⟨lookup_setColor_self l B Color.highlight hB, ?_, ?_, ?_⟩
  · intro kv hkv hne
    rcases mem_setColor l B Color.highlight kv hkv with h1 | ⟨hmem, hne2⟩
    · rw [h1] at hne
      exact absurd rfl hne
    · exact htext kv hmem hne2
  · intro kv hkv
    rcases mem_setColor l B Color.highlight kv hkv with h1 | ⟨hmem, hne2⟩
    · rw [h1]
      simp
    · rw [htext kv hmem hne2]
      simp [hne2.symm]
  · rw [setColor_keys]
    exact hB

/-- C9: activating selector `B` (an existing button) while the panel
satisfies the highlight invariant deactivates the previously active
selector and activates `B` exclusively: afterwards `B` is the
`last_chosen_button` and shows the highlight colour, every other selector
shows the normal text colour, and the invariant — at most one selector
visually marked active — still holds. -/
theorem selector_exclusive (p : Panel) (B : String)
    (hinv : PanelInv p)
    (hB : B ∈ p.text_color.map Prod.fst) :
    (set_active p B).last_chosen_button = some B ∧
    colorOf (set_active p B) B = some Color.highlight ∧
    (∀ kv ∈ (set_active p B).text_color, kv.1 ≠ B → kv.2 = Color.text) ∧
    PanelInv (set_active p B) := by
  obtain ⟨hcol, hlast⟩ := hinv
  by_cases hsame : p.last_chosen_button = some B
  · have hset : set_active p B = p := by
      unfold set_active
      rw [if_pos hsame]
    rw [hset]
    have hother : ∀ kv ∈ p.text_color, kv.1 ≠ B → kv.2 = Color.text := by
      intro kv hkv hne
      refine color_eq_text_of_ne kv.2 ?_
      intro hh
      have h2 := (hcol kv hkv).mp hh
      rw [hsame] at h2
      exact hne (Option.some_inj.mp h2).symm
    refine ⟨hsame, ?_, hother, hcol, ?_⟩
    · have hsome : (List.lookup B p.text_color).isSome := by
        rw [List.lookup_isSome_iff]
        rcases List.mem_map.mp hB with ⟨kv, hkv, hfst⟩
        exact ⟨kv, hkv, by simp [hfst]⟩
      obtain ⟨c, hc⟩ := Option.isSome_iff_exists.mp hsome
      have hmem := lookup_mem_colors p.text_color B c hc
      have hhigh : c = Color.highlight := by
        have := (hcol (B, c) hmem).mpr (by rw [hsame])
        exact this
      unfold colorOf
      rw [hc, hhigh]
    · rw [hsame]
      exact hB
  · cases hlc : p.last_chosen_button with
    | none =>
      have hset : set_active p B =
          ⟨some B, setColor p.text_color B Color.highlight⟩ := by
        unfold set_active
        rw [if_neg hsame, hlc]
      have htext : ∀ kv ∈ p.text_color, kv.1 ≠ B → kv.2 = Color.text := by
        intro kv hkv _
        refine color_eq_text_of_ne kv.2 ?_
        intro hh
        have h2 := (hcol kv hkv).mp hh
        rw [hlc] at h2
        cases h2
      obtain ⟨h1, h2, h3, h4⟩ := set_active_core p.text_color B htext hB
      rw [hset]
      exact ⟨rfl, h1, h2, h3, h4⟩
    | some prev =>
      have hset : set_active p B =
          ⟨some B, setColor (setColor p.text_color prev Color.text) B Color.highlight⟩ := by
        unfold set_active
        rw [if_neg hsame, hlc]
      have htext : ∀ kv ∈ setColor p.text_color prev Color.text,
          kv.1 ≠ B → kv.2 = Color.text := by
        intro kv hkv _
        rcases mem_setColor p.text_color prev Color.text kv hkv with h1 | ⟨hmem, hne2⟩
        · rw [h1]
        · refine color_eq_text_of_ne kv.2 ?_
          intro hh
          have h2 := (hcol kv hmem).mp hh
          rw [hlc] at h2
          exact hne2 (Option.some_inj.mp h2).symm
      have hBkeys : B ∈ (setColor p.text_color prev Color.text).map Prod.fst := by
        rw [setColor_keys]
        exact hB
      obtain ⟨h1, h2, h3, h4⟩ :=
        set_active_core (setColor p.text_color prev Color.text) B htext hBkeys
      rw [hset]
      exact ⟨rfl, h1, h2, h3, h4⟩

/-- Witness for selector exclusivity: the idle five-button panel, with no
active selector yet, on a click of "Week". -/
theorem selector_exclusive_witness :
    (set_active appIdle.panel "Week").last_chosen_button = some "Week" ∧
    colorOf (set_active appIdle.panel "Week") "Week" = some Color.highlight ∧
    (∀ kv ∈ (set_active appIdle.panel "Week").text_color,
      kv.1 ≠ "Week" → kv.2 = Color.text) ∧
    PanelInv (set_active appIdle.panel "Week") :=
  selector_exclusive appIdle.panel "Week"
    ⟨by decide, trivial⟩ (by decide)
